import Mathlib

/-!
Shallow embedding of the lgh event-driven gateway core
(packages `internal/event`, `internal/git`, `internal/server`,
commands `serve`/`replay`), together with theorems settling the
specification claims about it.

Machine integers do not overflow in any of the embedded code paths
(all counters are small), so Go `int`/`int64` values are modelled as
`Nat`.  Go strings are modelled as Lean `String` (or `List Char`
where character-level recursion makes proofs direct).  Go maps of
type `map[string]interface{}` are modelled as association lists with
Go assignment semantics (overwrite-or-append).
-/

/-- JSON-serializable payload values (`interface{}` restricted to what
the program stores in payloads). -/
inductive JVal where
  | bool (b : Bool)
  | str (s : String)
  | num (n : Int)
  | null
deriving DecidableEq, Repr

/-- `event.Event` from `internal/event`: id, type, repo name, optional
payload map, timestamp.  `Type` is a string in the source; the
timestamp is opaque to every claim except that it is preserved, so it
is modelled as a `Nat` tick. -/
structure Event where
  id : String
  type : String
  repoName : String
  payload : Option (List (String × JVal))
  timestamp : Nat
deriving DecidableEq, Repr

/-- Go map assignment `m[k] = v` on an association list: overwrite the
first binding of `k`, or append a new binding when `k` is absent. -/
def setKey : List (String × JVal) → String → JVal → List (String × JVal)
  | [], k, v => [(k, v)]
  | (k', v') :: rest, k, v =>
      if k' = k then (k, v) :: rest else (k', v') :: setKey rest k v

/-- Go map lookup `m[k]` on an association list. -/
def getKey : List (String × JVal) → String → Option JVal
  | [], _ => none
  | (k', v') :: rest, k => if k' = k then some v' else getKey rest k

/-! ## Event Bus (`internal/event/bus.go`)

`Bus.publish` iterates the registered handlers and invokes each inside
an anonymous function whose deferred `recover()` catches a panic, so
the loop continues with the next handler and nothing propagates to the
publisher.  A Go handler may mutate shared state and may panic
mid-way; it is embedded as a state transformer that either returns the
new state or "panics", carrying the panic value together with the
state as mutated up to the point of the panic (Go mutations made
before a panic persist after `recover`). -/

/-- A Go event handler over mutable state `σ`: normal return with the
new state, or a panic (`.error`) carrying the panic message and the
state at the moment of the panic. -/
def GoHandler (σ : Type) := Event → σ → Except (String × σ) σ

/-- The body of the dispatch loop in `Bus.publish`: call the handler;
the deferred `recover()` swallows a panic, keeping the state the
handler produced before panicking. -/
def runIsolated {σ : Type} (h : GoHandler σ) (e : Event) (s : σ) : σ :=
  match h e s with
  | .ok s' => s'
  | .error (_, s') => s'

/-- `Bus.publish`: invoke every registered handler, in registration
order (`b.handlers` is append-only via `Subscribe`), each inside the
recover wrapper.  The return type `σ` (no error component) reflects
that no handler failure escapes to the publisher. -/
def publish {σ : Type} (handlers : List (GoHandler σ)) (e : Event) (s : σ) : σ :=
  handlers.foldl (fun acc h => runIsolated h e acc) s

/-- An observing handler: records its index in a shared trace, then
either returns normally or panics (after the record, as a Go handler's
side effects before its panic are preserved). -/
def tracingHandler (i : Nat) (panics : Bool) : GoHandler (List Nat) :=
  fun _ s => if panics then .error ("panic", s ++ [i]) else .ok (s ++ [i])

/-! ## Async Persistent Logger queue (`internal/event/logger.go`)

`NewFileLogger` creates `queue: make(chan Event, 100)`.  `Handle` does
a `select` with a `default` branch: the send succeeds exactly when the
buffer has free space, otherwise the event is dropped.  The buffered
channel is modelled as the list of queued events. -/

/-- Capacity of the logger's queue channel (`make(chan Event, 100)`). -/
def logQueueCap : Nat := 100

/-- `FileLogger.Handle`: non-blocking enqueue; drop when full. -/
def Handle (queue : List Event) (e : Event) : List Event :=
  if queue.length < logQueueCap then queue ++ [e] else queue

/-! ## Real-Time Broker (`internal/event/broker.go`)

`SubscribeClient` registers `make(chan Event, 100)`.
`Broker.Broadcast` iterates the client set under `RLock` and performs
a non-blocking send (`select` with `default`) to each channel.  Each
client channel is modelled by its buffer of pending events. -/

/-- Capacity of a subscriber channel (`make(chan Event, 100)`). -/
def clientChanCap : Nat := 100

/-- One subscriber channel of the Broker: its buffered, ordered
pending events. -/
structure Client where
  buf : List Event
deriving DecidableEq, Repr

/-- `Broker.Broadcast`: non-blocking send of `e` to every client; a
full buffer means the event is skipped for that client only, and the
client stays registered. -/
def BroadcastClients (clients : List Client) (e : Event) : List Client :=
  clients.map fun c => if c.buf.length < clientChanCap then ⟨c.buf ++ [e]⟩ else c

/-! ## Basic-Auth password checking (`internal/server/auth.go`)

The SHA-256 and HMAC-SHA256 primitives come from Go's crypto standard
library (external to this repository); they are modelled as abstract
hex-digest functions supplied by a `CryptoOracle`.  Byte strings are
modelled as `List Char`.  `subtle.ConstantTimeCompare(x, y) == 1`
holds exactly when the two byte slices are equal, so it is embedded as
equality (the timing aspect is not representable in a shallow
embedding). -/

/-- Abstract cryptographic hash primitives used by the auth code:
`sha256Hex s` models `hex(sha256(s))` and `hmacHex key msg` models
`hex(hmac-sha256(key, msg))`. -/
structure CryptoOracle where
  sha256Hex : List Char → List Char
  hmacHex : List Char → List Char → List Char

/-- `hashWithSalt(password, salt)`: HMAC-SHA256 keyed by the salt. -/
def hashWithSalt (c : CryptoOracle) (password salt : List Char) : List Char :=
  c.hmacHex salt password

/-- `strings.SplitN(s, ":", 2)` restricted to what `checkPassword`
needs: `some (before, after)` splits at the first colon; `none` when
the string has no colon (so `SplitN` returns a single part). -/
def splitFirstColon : List Char → Option (List Char × List Char)
  | [] => none
  | ch :: rest =>
      if ch = ':' then some ([], rest)
      else
        match splitFirstColon rest with
        | none => none
        | some (a, b) => some (ch :: a, b)

/-- `AuthMiddleware.checkPassword`: salted `salt:hash` verification
when the stored value splits at a colon, otherwise comparison against
a plain unsalted SHA-256 hex digest.  (`ValidatePasswordHash` in the
same file is this exact logic.) -/
def checkPassword (c : CryptoOracle) (storedHash password : List Char) : Bool :=
  match splitFirstColon storedHash with
  | some (salt, expectedHash) => expectedHash == hashWithSalt c password salt
  | none => storedHash == c.sha256Hex password

/-! ## Gateway middleware chain (`internal/server` `Server.Start`)

A handler is a function from a request to a response; to make the
claimed execution order of the middleware layers observable, each
middleware layer additionally prepends its tag to a trace when its
body runs, so the trace lists the layers in the order they executed.
The tags are the only instrumentation added to the source logic. -/

/-- An HTTP response: status code and body. -/
structure Response where
  status : Nat
  body : String
deriving DecidableEq, Repr

/-- An HTTP request as the middleware chain reads it: `basicOk` is the
`ok` result of `r.BasicAuth()`, and `user`/`pass` the decoded
credentials. -/
structure Request where
  method : String
  path : String
  basicOk : Bool
  user : List Char
  pass : List Char

/-- A handler instrumented with the execution trace of middleware
tags. -/
def THandler := Request → List String × Response

/-- `strings.Split(s, "/")` on character lists (every Go string here
is handled as its character list so that terms evaluate by kernel
reduction). -/
def splitOnChar (sep : Char) : List Char → List (List Char)
  | [] => [[]]
  | c :: rest =>
      match splitOnChar sep rest with
      | [] => [[]]
      | h :: t => if c = sep then [] :: h :: t else (c :: h) :: t

/-- `strings.Join(parts, sep)` on character lists. -/
def joinChar (sep : Char) : List (List Char) → List Char
  | [] => []
  | [x] => x
  | x :: xs => x ++ sep :: joinChar sep xs

/-- The path rewrite of `virtualOwnerMiddleware` on the path's
character list: trim one leading `/`, split into segments; when the
first segment ending in `.git` is at index 1 and segment 0 is the
sentinel `"lgh"`, drop the sentinel; otherwise leave the path
unchanged. -/
def virtualOwnerRewriteL (path : List Char) : List Char :=
  if path = [] then path
  else
    let trimmed := match path with
      | '/' :: rest => rest
      | other => other
    let parts := splitOnChar '/' trimmed
    let gitIdx := parts.findIdx? (fun p => ".git".toList.isSuffixOf p)
    if gitIdx = some 1 ∧ parts.head? = some "lgh".toList then
      '/' :: joinChar '/' parts.tail
    else path

/-- The path rewrite of `virtualOwnerMiddleware` as a `String`
function. -/
def virtualOwnerRewrite (path : String) : String :=
  String.mk (virtualOwnerRewriteL path.toList)

/-- `Server.virtualOwnerMiddleware`: rewrite the request path, then
invoke the wrapped handler. -/
def virtualOwnerMiddleware (next : THandler) : THandler := fun r =>
  let res := next { r with path := virtualOwnerRewrite r.path }
  ("virtualOwner" :: res.1, res.2)

/-- `Server.loggingMiddleware`: records method, path, status, duration
and remote address to stdout around the wrapped handler; it modifies
neither the request nor the response. -/
def loggingMiddleware (next : THandler) : THandler := fun r =>
  let res := next r
  ("logging" :: res.1, res.2)

/-- `AuthMiddleware` state: username and stored password hash. -/
structure AuthMW where
  username : List Char
  passwordHash : List Char

/-- The 401 response written by `AuthMiddleware.unauthorized` (the
`WWW-Authenticate` challenge header is not modelled). -/
def unauthorizedResp : Response := ⟨401, "Unauthorized"⟩

/-- `AuthMiddleware.Wrap`: `/health` bypasses authentication; missing
credentials or a failed constant-time username/password check yield
401; otherwise the wrapped handler runs. -/
def authWrap (a : AuthMW) (c : CryptoOracle) (next : THandler) : THandler := fun r =>
  if r.path = "/health" then
    let res := next r
    ("auth" :: res.1, res.2)
  else if !r.basicOk then (["auth"], unauthorizedResp)
  else
    let usernameMatch := r.user == a.username
    let passwordMatch := checkPassword c a.passwordHash r.pass
    if !usernameMatch || !passwordMatch then (["auth"], unauthorizedResp)
    else
      let res := next r
      ("auth" :: res.1, res.2)

/-- The configuration fields of `Server.Start` that decide the chain
shape. -/
structure ServerCfg where
  authEnabled : Bool
  authUser : List Char
  authPasswordHash : List Char

/-- The handler chain built in `Server.Start`: starting from the Git
backend handler, wrap with the virtual-owner middleware, then the
logging middleware, then (when authentication is configured) the auth
middleware — so the auth middleware is outermost. -/
def startChain (cfg : ServerCfg) (c : CryptoOracle) (git : THandler) : THandler :=
  let handler := virtualOwnerMiddleware git
  let handler := loggingMiddleware handler
  if cfg.authEnabled ∧ cfg.authUser ≠ [] ∧ cfg.authPasswordHash ≠ [] then
    authWrap ⟨cfg.authUser, cfg.authPasswordHash⟩ c handler
  else handler

/-! ## Debug event-injection endpoint (`Server.handleDebugEvents`) -/

/-- A request to `/debug/events`: `remoteHost` is the host part
computed by `net.SplitHostPort(r.RemoteAddr)` (`none` when that split
fails, which the handler also rejects with 403); `body` is the result
of JSON-decoding the request body (`none` = malformed). -/
structure DebugRequest where
  method : String
  remoteHost : Option String
  body : Option Event

/-- The tagging performed on an accepted event: create the payload map
when it is `nil`, then assign `payload["_replayed"] = true`. -/
def tagReplayed (e : Event) : Event :=
  let payload := e.payload.getD []
  { e with payload := some (setKey payload "_replayed" (JVal.bool true)) }

/-- Body written on success: `{"status":"ok"}`. -/
def okBody : String := "\x7b\"status\":\"ok\"\x7d"

/-- `Server.handleDebugEvents`: the response, together with the event
handed to `event.Broadcast` (`none` when nothing is broadcast). -/
def handleDebugEvents (r : DebugRequest) : Response × Option Event :=
  if r.method ≠ "POST" then (⟨405, "Method not allowed"⟩, none)
  else
    match r.remoteHost with
    | none => (⟨403, "Forbidden"⟩, none)
    | some host =>
        if host ≠ "127.0.0.1" ∧ host ≠ "::1" then
          (⟨403, "Forbidden: Localhost only"⟩, none)
        else
          match r.body with
          | none => (⟨400, "Invalid JSON"⟩, none)
          | some evt => (⟨200, okBody⟩, some (tagReplayed evt))

/-- The state reachable from the debug endpoint: the Broker's clients
(`event.Broadcast` targets only these) and the Logger's queue (fed
only through `Publish`/`Handle`, which the endpoint never calls). -/
structure EventSystem where
  clients : List Client
  logQueue : List Event

/-- The endpoint's effect on the event system: on acceptance the
tagged event goes through `event.Broadcast` (Broker only); no path
touches the Logger's queue. -/
def serveDebugEvents (s : EventSystem) (r : DebugRequest) : EventSystem × Response :=
  match handleDebugEvents r with
  | (resp, some evt) => ({ s with clients := BroadcastClients s.clients evt }, resp)
  | (resp, none) => (s, resp)

/-! ## Git backend (`internal/git/backend.go`) -/

/-- `strings.Contains`. -/
def goContains (s sub : String) : Bool := decide (sub.toList <:+: s.toList)

/-- `Backend.parseRequest`: the regex match
`^/([^/]+\.git)(.*)$` — group 1 lies inside the first path segment,
must end in `.git` with at least one character before it, and greedy
matching makes it the longest such prefix; group 2 is the remainder.
Returns `("", "")` when the regex does not match. -/
def parseRequestL (path : List Char) : List Char × List Char :=
  match path with
  | [] => ([], [])
  | c :: rest =>
      if c ≠ '/' then ([], [])
      else
        let seg := rest.takeWhile (fun ch => decide (ch ≠ '/'))
        let tail := rest.drop seg.length
        match (List.range (seg.length + 1)).reverse.find?
            (fun i => decide (5 ≤ i) && ".git".toList.isSuffixOf (seg.take i)) with
        | some i => (seg.take i, seg.drop i ++ tail)
        | none => ([], [])

/-- `Backend.parseRequest` as a `String` function. -/
def parseRequest (path : String) : String × String :=
  let p := parseRequestL path.toList
  (String.mk p.1, String.mk p.2)

/-- A request as `Backend.ServeHTTP` reads it: method, URL path, and
the `service` query parameter (`""` when absent, as
`r.URL.Query().Get` returns). -/
structure GitRequest where
  method : String
  path : String
  serviceQuery : String

/-- `Backend.isPushRequest`: POST, and either the sub-path after the
repository segment contains `git-receive-pack`, or the `service`
query parameter equals `git-receive-pack`. -/
def isPushRequest (r : GitRequest) (gitPath : String) : Bool :=
  if r.method ≠ "POST" then false
  else if goContains gitPath "git-receive-pack" then true
  else r.serviceQuery == "git-receive-pack"

/-- Outcome of `Backend.ServeHTTP`: an error status written locally,
or delegation to the external `git-http-backend` process with the CGI
request path it is given. -/
inductive BackendResult where
  | httpError (status : Nat) (msg : String)
  | delegated (cgiPath : String)
deriving DecidableEq, Repr

/-- `Backend` state: read-only flag, and the filesystem predicate
`IsBareRepo(filepath.Join(reposDir, repoPath))` as an oracle (it
stats files and runs `git config`, both external effects). -/
structure Backend where
  readOnly : Bool
  isBare : String → Bool

/-- `Backend.ServeHTTP`: parse failure → 400; read-only push → 403;
missing/non-bare repository → 404; otherwise delegate with path
`"/" + repoPath + gitPath`. -/
def ServeHTTP (b : Backend) (r : GitRequest) : BackendResult :=
  let pr := parseRequest r.path
  if pr.1 = "" then .httpError 400 "Invalid repository path"
  else if b.readOnly && isPushRequest r pr.2 then
    .httpError 403 "Repository is read-only. Push operations are not allowed."
  else if ¬ b.isBare pr.1 then
    .httpError 404 ("Repository not found: " ++ pr.1)
  else .delegated ("/" ++ pr.1 ++ pr.2)

/-! ## Logger worker and rotation (`internal/event/logger.go`) -/

/-- `MaxLogSize`: rotation threshold, 10 MiB. -/
def MaxLogSize : Nat := 10 * 1024 * 1024

/-- A wall-clock instant as `time.Now()` provides it to the rotation
code. -/
structure DateTime where
  year : Nat
  month : Nat
  day : Nat
  hour : Nat
  minute : Nat
  second : Nat
deriving Repr

/-- Two-digit zero padding, as Go's reference-layout formatting
produces for month, day, hour, minute and second. -/
def pad2 (n : Nat) : String := if n < 10 then "0" ++ toString n else toString n

/-- Four-digit zero padding for the year. -/
def pad4 (n : Nat) : String :=
  if n < 10 then "000" ++ toString n
  else if n < 100 then "00" ++ toString n
  else if n < 1000 then "0" ++ toString n
  else toString n

/-- `time.Now().Format("20060102-150405")`: `YYYYMMDD-HHMMSS`. -/
def formatStamp (t : DateTime) : String :=
  pad4 t.year ++ pad2 t.month ++ pad2 t.day ++ "-" ++
    pad2 t.hour ++ pad2 t.minute ++ pad2 t.second

/-- A log file: its byte size (`fi.Size()`) and the events whose
serializations were appended to it. -/
structure LogFile where
  size : Nat
  events : List Event
deriving DecidableEq, Repr

/-- The Logger's file state: canonical path, current file, and the
rotated files by backup path. -/
structure LoggerState where
  filePath : String
  file : LogFile
  rotated : List (String × LogFile)
deriving DecidableEq, Repr

/-- `FileLogger.rotateIfNeeded`: below the threshold do nothing;
otherwise close the current file, rename it to the canonical path
plus `"." + timestamp`, and open a fresh empty file at the canonical
path. -/
def rotateIfNeeded (s : LoggerState) (now : DateTime) : LoggerState :=
  if s.file.size < MaxLogSize then s
  else
    { s with
      file := ⟨0, []⟩,
      rotated := s.rotated ++ [(s.filePath ++ "." ++ formatStamp now, s.file)] }

/-- One iteration of `FileLogger.worker` for a dequeued event `e`
whose JSON serialization is `encSize` bytes: rotate if needed, then
append the serialization plus a newline to the current file. -/
def workerStep (s : LoggerState) (e : Event) (now : DateTime) (encSize : Nat) : LoggerState :=
  let s' := rotateIfNeeded s now
  { s' with file := ⟨s'.file.size + encSize + 1, s'.file.events ++ [e]⟩ }

/-! ## Replay engine (`cmd/lgh/replay.go`) -/

/-- One line of the persisted log as `json.Unmarshal` sees it:
`none` models a line that fails to parse as an Event. -/
abbrev LogLine := Option Event

/-- The candidate collection loop of `readLastEvents`: skip
unparsable lines; when a type filter is set, skip events of a
different type. -/
def matchingEvents (lines : List LogLine) (filterType : String) : List Event :=
  lines.filterMap fun l =>
    match l with
    | none => none
    | some evt =>
        if filterType ≠ "" ∧ evt.type ≠ filterType then none else some evt

/-- `readLastEvents`: collect candidates, then return the slice
`candidates[start:]` where `start = count - limit` when `count >
limit` and `0` otherwise. -/
def readLastEvents (lines : List LogLine) (limit : Nat) (filterType : String) : List Event :=
  let candidates := matchingEvents lines filterType
  let count := candidates.length
  let start := if count > limit then count - limit else 0
  candidates.drop start

/-- The POST loop of `runReplay`.  `post e` models
`client.Post(serverURL, ...)`: `.ok status` is a completed HTTP
round-trip with that status code, `.error err` a transport failure.
Returns the success count (responses with status 200) together with
the events actually posted, in order; a transport failure aborts with
the wrapped error message. -/
def replayPost (events : List Event) (post : Event → Except String Nat) :
    Except String (Nat × List Event) :=
  match events with
  | [] => .ok (0, [])
  | e :: rest =>
      match post e with
      | .error err => .error ("failed to send event: " ++ err ++ " (is server running?)")
      | .ok status =>
          match replayPost rest post with
          | .error m => .error m
          | .ok (n, tr) => .ok ((if status = 200 then n + 1 else n), e :: tr)

/-- `runReplay` after config/log loading: select the events, return
immediately when none match, otherwise run the POST loop. -/
def runReplay (lines : List LogLine) (limit : Nat) (filterType : String)
    (post : Event → Except String Nat) : Except String (Nat × List Event) :=
  let evs := readLastEvents lines limit filterType
  if evs.isEmpty then .ok (0, [])
  else replayPost evs post

/-! ## Concrete fixtures used by witnesses and counterexamples -/

/-- A concrete crypto oracle for evaluation: `sha256Hex` marks its
input with a leading `H`, `hmacHex` concatenates key and message. -/
def oracle0 : CryptoOracle := ⟨fun p => 'H' :: p, fun key msg => key ++ msg⟩

/-- A `git.push` event with no payload. -/
def ev0 : Event := ⟨"id-0", "git.push", "demo", none, 0⟩

/-- A `repo.added` event with a one-entry payload. -/
def ev1 : Event := ⟨"id-1", "repo.added", "demo", some [("k", JVal.str "v")], 1⟩

/-- A `git.push` event with a one-entry payload. -/
def ev2 : Event := ⟨"id-2", "git.push", "other", some [("seen", JVal.bool false)], 2⟩

/-- An innermost handler that answers 200 and echoes the path it was
given, so the path the backend receives is observable. -/
def git0 : THandler := fun r => ([], ⟨200, r.path⟩)

/-- A server configuration with authentication enabled (user `u`,
stored hash `Hpw`, i.e. `oracle0`'s digest of `pw`). -/
def cfg0 : ServerCfg := ⟨true, "u".toList, "Hpw".toList⟩

/-- A request without credentials to a virtual-owner path. -/
def req0 : Request := ⟨"GET", "/lgh/demo.git/info/refs", false, [], []⟩

/-- The same request with valid credentials. -/
def req1 : Request := ⟨"GET", "/lgh/demo.git/info/refs", true, "u".toList, "pw".toList⟩

/-- An event system with one empty subscriber and one queued event. -/
def sys0 : EventSystem := ⟨[⟨[]⟩], [ev0]⟩

/-- Debug request: wrong method. -/
def dreq405 : DebugRequest := ⟨"GET", some "127.0.0.1", some ev0⟩

/-- Debug request: well-formed event from a non-loopback address. -/
def dreq403 : DebugRequest := ⟨"POST", some "10.0.0.5", some ev0⟩

/-- Debug request: loopback, malformed body. -/
def dreq400 : DebugRequest := ⟨"POST", some "127.0.0.1", none⟩

/-- Debug request: IPv6 loopback, well-formed event. -/
def dreq200 : DebugRequest := ⟨"POST", some "::1", some ev2⟩

/-- Debug request: loopback, event with a pre-existing payload. -/
def dreqC6 : DebugRequest := ⟨"POST", some "127.0.0.1", some ev1⟩

/-- A read-only backend where every repository exists as bare. -/
def backendC7 : Backend := ⟨true, fun _ => true⟩

/-- A POST fetch request to a repository whose *name* contains
`git-receive-pack`. -/
def reqC7 : GitRequest := ⟨"POST", "/git-receive-pack.git/info/refs", ""⟩

/-- A read-only backend with no repositories. -/
def backendRO : Backend := ⟨true, fun _ => false⟩

/-- A writable backend with no repositories. -/
def backendRW : Backend := ⟨false, fun _ => false⟩

/-- A writable backend where every repository exists as bare. -/
def backendOK : Backend := ⟨false, fun _ => true⟩

/-- A push request (receive-pack sub-path). -/
def reqPush : GitRequest := ⟨"POST", "/demo.git/git-receive-pack", ""⟩

/-- A logger state whose current file has reached the threshold. -/
def stFull : LoggerState := ⟨"events.jsonl", ⟨MaxLogSize, [ev0]⟩, []⟩

/-- A logger state whose current file is below the threshold. -/
def stSmall : LoggerState := ⟨"events.jsonl", ⟨7, [ev0]⟩, []⟩

/-- A concrete rotation instant. -/
def now0 : DateTime := ⟨2026, 1, 2, 3, 4, 5⟩

/-- A log with one unparsable line and mixed event types. -/
def linesW : List LogLine := [some ev0, none, some ev1, some ev2, some ev0]

/-- A posting function that fails (transport error) exactly on
`ev2`. -/
def postFail : Event → Except String Nat :=
  fun e => if e.id = "id-2" then .error "connection refused" else .ok 200

/-! ## Helper lemmas -/

theorem getKey_setKey_same (l : List (String × JVal)) (k : String) (v : JVal) :
    getKey (setKey l k v) k = some v := by
  induction l with
  | nil => simp [setKey, getKey]
  | cons p rest ih =>
      obtain ⟨a, b⟩ := p
      by_cases h : a = k
      · simp [setKey, getKey, h]
      · simp [setKey, getKey, h, ih]

theorem getKey_setKey_other (l : List (String × JVal)) (k k' : String) (v : JVal)
    (h : k' ≠ k) : getKey (setKey l k v) k' = getKey l k' := by
  induction l with
  | nil => simp [setKey, getKey, Ne.symm h]
  | cons p rest ih =>
      obtain ⟨a, b⟩ := p
      by_cases hp : a = k
      · subst hp
        simp [setKey, getKey, Ne.symm h, h]
      · by_cases hp' : a = k'
        · subst hp'
          simp [setKey, getKey, hp, h]
        · simp [setKey, getKey, hp, hp', ih]

theorem runIsolated_tracingHandler (i : Nat) (b : Bool) (e : Event) (s : List Nat) :
    runIsolated (tracingHandler i b) e s = s ++ [i] := by
  cases b <;> rfl

/-! ## Claims -/

/-- C2: a single `Publish` call invokes every handler registered
before the call exactly once, synchronously (the dispatch is a plain
sequential fold on the caller's control path), in registration order,
and a panicking handler is caught inside the dispatch loop, neither
propagating to the publisher (the result type of `publish` has no
error component) nor preventing the remaining handlers from being
invoked: for any registration list (each handler recording its index
and then panicking or not), the recorded trace is exactly the list of
registered indices, in order, once each. -/
theorem publish_invokes_all_in_order (e : Event) (hs : List (Nat × Bool)) (s : List Nat) :
    publish (hs.map fun p => tracingHandler p.1 p.2) e s = s ++ hs.map Prod.fst := by
  induction hs generalizing s with
  | nil => simp [publish]
  | cons p rest ih =>
      obtain ⟨i, b⟩ := p
      have step : publish ((tracingHandler i b) :: rest.map fun p => tracingHandler p.1 p.2) e s
          = publish (rest.map fun p => tracingHandler p.1 p.2) e (runIsolated (tracingHandler i b) e s) := rfl
      simp only [List.map_cons, step, runIsolated_tracingHandler, ih]
      simp

/-- C3: `FileLogger.Handle` enqueues the event when the bounded queue
(capacity 100) has free space, and drops it when the queue is full:
the call returns (it is a total function), signals no error (its
result is just the queue), and leaves the queue unmodified. -/
theorem handle_enqueues_or_drops (q : List Event) (e : Event) :
    (q.length < logQueueCap → Handle q e = q ++ [e]) ∧
    (logQueueCap ≤ q.length → Handle q e = q) := by
  constructor
  · intro h
    unfold Handle
    rw [if_pos h]
  · intro h
    unfold Handle
    rw [if_neg (by omega)]

/-- C3 witness: an empty queue accepts the event; a full queue (100
events) drops it unchanged. -/
theorem handle_enqueues_or_drops_witness :
    Handle [] ev0 = [ev0] ∧
    Handle (List.replicate 100 ev0) ev1 = List.replicate 100 ev0 := by
  constructor
  · exact (handle_enqueues_or_drops [] ev0).1 (by decide)
  · exact (handle_enqueues_or_drops (List.replicate 100 ev0) ev1).2 (by simp [logQueueCap])

/-- C4: one `Broker.Broadcast` delivers exactly one copy of the event
to each subscriber channel with free buffer space, delivers none to a
channel whose buffer is full while keeping that channel registered,
and acts on each channel independently of the others (the effect on
position `i` depends only on the channel at position `i`); the
subscriber set itself is unchanged in size. -/
theorem broadcast_per_client (clients : List Client) (e : Event) (i : Nat) (c : Client)
    (h : clients[i]? = some c) :
    (BroadcastClients clients e).length = clients.length ∧
    (BroadcastClients clients e)[i]? =
      some (if c.buf.length < clientChanCap then ⟨c.buf ++ [e]⟩ else c) := by
  constructor
  · simp [BroadcastClients]
  · simp [BroadcastClients, h]

/-- C4 witness: with one empty subscriber and one full subscriber,
broadcasting delivers one copy to the first and none to the second,
which stays registered. -/
theorem broadcast_per_client_witness :
    (BroadcastClients [⟨[]⟩, ⟨List.replicate 100 ev0⟩] ev1).length = 2 ∧
    (BroadcastClients [⟨[]⟩, ⟨List.replicate 100 ev0⟩] ev1)[0]? = some ⟨[ev1]⟩ ∧
    (BroadcastClients [⟨[]⟩, ⟨List.replicate 100 ev0⟩] ev1)[1]? =
      some ⟨List.replicate 100 ev0⟩ := by
  have h0 := broadcast_per_client [⟨[]⟩, ⟨List.replicate 100 ev0⟩] ev1 0 ⟨[]⟩ (by rfl)
  have h1 := broadcast_per_client [⟨[]⟩, ⟨List.replicate 100 ev0⟩] ev1 1
      ⟨List.replicate 100 ev0⟩ (by rfl)
  refine ⟨h0.1, ?_, ?_⟩
  · rw [h1.2] at h1
    rw [h0.2]
    simp [clientChanCap]
  · rw [h1.2]
    simp [clientChanCap]

/-- C5: the debug injection endpoint answers 405 to any non-POST
request; 403 (and broadcasts nothing, leaving the event system
untouched) to any POST whose remote host is neither `127.0.0.1` nor
the IPv6 loopback, whatever the payload; 400 to a loopback POST whose
body fails to decode; and 200 with body `{"status":"ok"}` to a
loopback POST carrying a valid Event. -/
theorem debug_endpoint_statuses (r : DebugRequest) (s : EventSystem) (host : String)
    (evt : Event) :
    (r.method ≠ "POST" → handleDebugEvents r = (⟨405, "Method not allowed"⟩, none)) ∧
    (r.method = "POST" → r.remoteHost = some host → host ≠ "127.0.0.1" → host ≠ "::1" →
      handleDebugEvents r = (⟨403, "Forbidden: Localhost only"⟩, none) ∧
      serveDebugEvents s r = (s, ⟨403, "Forbidden: Localhost only"⟩)) ∧
    (r.method = "POST" → r.remoteHost = some host → (host = "127.0.0.1" ∨ host = "::1") →
      r.body = none → handleDebugEvents r = (⟨400, "Invalid JSON"⟩, none)) ∧
    (r.method = "POST" → r.remoteHost = some host → (host = "127.0.0.1" ∨ host = "::1") →
      r.body = some evt →
      handleDebugEvents r = (⟨200, okBody⟩, some (tagReplayed evt))) := by
  refine ⟨?_, ?_, ?_, ?_⟩
  · intro hm
    simp [handleDebugEvents, hm]
  · intro hm hh h1 h2
    have hcore : handleDebugEvents r = (⟨403, "Forbidden: Localhost only"⟩, none) := by
      simp [handleDebugEvents, hm, hh, h1, h2]
    exact ⟨hcore, by simp [serveDebugEvents, hcore]⟩
  · intro hm hh hloop hb
    rcases hloop with h | h <;> subst h <;> simp [handleDebugEvents, hm, hh, hb]
  · intro hm hh hloop hb
    rcases hloop with h | h <;> subst h <;> simp [handleDebugEvents, hm, hh, hb]

/-- C5 witness: concrete requests hitting each branch — a GET gets
405; a POST from 10.0.0.5 gets 403 with the event system unchanged; a
loopback POST with undecodable body gets 400; an IPv6-loopback POST
with a valid event gets 200 and the ok body. -/
theorem debug_endpoint_statuses_witness :
    handleDebugEvents dreq405 = (⟨405, "Method not allowed"⟩, none) ∧
    serveDebugEvents sys0 dreq403 = (sys0, ⟨403, "Forbidden: Localhost only"⟩) ∧
    handleDebugEvents dreq400 = (⟨400, "Invalid JSON"⟩, none) ∧
    handleDebugEvents dreq200 = (⟨200, okBody⟩, some (tagReplayed ev2)) := by
  refine ⟨?_, ?_, ?_, ?_⟩
  · exact (debug_endpoint_statuses dreq405 sys0 "127.0.0.1" ev0).1 (by decide)
  · exact ((debug_endpoint_statuses dreq403 sys0 "10.0.0.5" ev0).2.1 rfl rfl
      (by decide) (by decide)).2
  · exact (debug_endpoint_statuses dreq400 sys0 "127.0.0.1" ev0).2.2.1 rfl rfl
      (Or.inl rfl) rfl
  · exact (debug_endpoint_statuses dreq200 sys0 "::1" ev2).2.2.2 rfl rfl
      (Or.inr rfl) rfl

/-- C6: on acceptance the debug endpoint adds exactly the key
`_replayed = true` to the event's payload (creating the map only when
it was absent): id, type, repository name, timestamp and the lookup
of every other payload key are unchanged; and the tagged event is
handed to the Broker's `Broadcast` (clients updated pointwise) while
the Logger's queue — fed only via Bus `Publish` — is left untouched,
so the replayed event is not re-persisted. -/
theorem debug_accept_tags_and_rebroadcasts (s : EventSystem) (r : DebugRequest)
    (host : String) (evt : Event)
    (hm : r.method = "POST") (hh : r.remoteHost = some host)
    (hloop : host = "127.0.0.1" ∨ host = "::1") (hb : r.body = some evt) :
    handleDebugEvents r = (⟨200, okBody⟩, some (tagReplayed evt)) ∧
    (tagReplayed evt).id = evt.id ∧
    (tagReplayed evt).type = evt.type ∧
    (tagReplayed evt).repoName = evt.repoName ∧
    (tagReplayed evt).timestamp = evt.timestamp ∧
    (∃ m, (tagReplayed evt).payload = some m ∧
      getKey m "_replayed" = some (JVal.bool true) ∧
      ∀ k, k ≠ "_replayed" → getKey m k = getKey (evt.payload.getD []) k) ∧
    serveDebugEvents s r =
      (⟨BroadcastClients s.clients (tagReplayed evt), s.logQueue⟩, ⟨200, okBody⟩) := by
  have hcore : handleDebugEvents r = (⟨200, okBody⟩, some (tagReplayed evt)) := by
    rcases hloop with h | h <;> subst h <;> simp [handleDebugEvents, hm, hh, hb]
  refine ⟨hcore, rfl, rfl, rfl, rfl, ?_, ?_⟩
  · refine ⟨setKey (evt.payload.getD []) "_replayed" (JVal.bool true), rfl, ?_, ?_⟩
    · exact getKey_setKey_same _ _ _
    · intro k hk
      exact getKey_setKey_other _ _ _ _ hk
  · simp [serveDebugEvents, hcore]

/-- C6 witness: the loopback POST of an event whose payload already
holds key `k` answers 200 and broadcasts the tagged event; the lookup
of `k` in the tagged payload still answers its old value, and
`_replayed` answers `true`; the logger queue of the event system is
unchanged. -/
theorem debug_accept_tags_witness :
    handleDebugEvents dreqC6 = (⟨200, okBody⟩, some (tagReplayed ev1)) ∧
    getKey ((tagReplayed ev1).payload.getD []) "k" = some (JVal.str "v") ∧
    getKey ((tagReplayed ev1).payload.getD []) "_replayed" = some (JVal.bool true) ∧
    (serveDebugEvents sys0 dreqC6).1.logQueue = sys0.logQueue := by
  have h := debug_accept_tags_and_rebroadcasts sys0 dreqC6 "127.0.0.1" ev1 rfl rfl
      (Or.inl rfl) rfl
  refine ⟨h.1, by decide, by decide, ?_⟩
  rw [h.2.2.2.2.2.2]

/-- C1 counterexample: the claim says the virtual-owner rewrite is the
outermost layer (runs first, before the authentication check).  With
authentication enabled, the chain built in `Server.Start` wraps the
auth middleware outermost, so for a credential-less request to a
virtual-owner path the executed-layer trace is just `["auth"]`: the
request is rejected 401 before the virtual-owner rewrite ever runs,
refuting the claimed order at this input. -/
theorem middleware_order_counterexample :
    (startChain cfg0 oracle0 git0 req0).1 = ["auth"] ∧
    (startChain cfg0 oracle0 git0 req0).2 = unauthorizedResp ∧
    (startChain cfg0 oracle0 git0 req0).1.head? ≠ some "virtualOwner" := by
  refine ⟨?_, ?_, ?_⟩ <;> decide

/-- C1 amended: the middleware layers run in the order Basic-Auth
(when enabled), then access logging, then the virtual-owner rewrite,
then the Git backend gates — the opposite of the claimed order; in
particular the virtual-owner rewrite of the request path is applied
*after* the authentication check, and the backend still receives the
rewritten path for every authenticated request. -/
theorem middleware_order_amended (cfg : ServerCfg) (c : CryptoOracle) (git : THandler)
    (r : Request)
    (hE : cfg.authEnabled = true) (hU : cfg.authUser ≠ []) (hH : cfg.authPasswordHash ≠ [])
    (hPath : r.path ≠ "/health") (hOk : r.basicOk = true)
    (hUser : (r.user == cfg.authUser) = true)
    (hPass : checkPassword c cfg.authPasswordHash r.pass = true) :
    startChain cfg c git r =
      ("auth" :: "logging" :: "virtualOwner" ::
          (git { r with path := virtualOwnerRewrite r.path }).1,
        (git { r with path := virtualOwnerRewrite r.path }).2) := by
  unfold startChain
  rw [if_pos ⟨hE, hU, hH⟩]
  unfold authWrap
  rw [if_neg hPath]
  simp only [hOk, Bool.not_true, Bool.false_eq_true, if_false, hUser, hPass, Bool.or_self]
  simp [loggingMiddleware, virtualOwnerMiddleware, hOk]

/-- C1 amended witness: with authentication enabled and valid
credentials, the request to `/lgh/demo.git/info/refs` produces the
trace auth → logging → virtualOwner, and the innermost handler
observes the rewritten path `/demo.git/info/refs`. -/
theorem middleware_order_amended_witness :
    startChain cfg0 oracle0 git0 req1 =
      (["auth", "logging", "virtualOwner"], ⟨200, "/demo.git/info/refs"⟩) := by
  have h := middleware_order_amended cfg0 oracle0 git0 req1 rfl (by decide) (by decide)
      (by decide) rfl (by decide) (by decide)
  rw [h]
  decide

/-- C7 counterexample: the claim classifies as a push every POST whose
*request path* contains `git-receive-pack`, and says every such
request is answered 403 (without delegation) in read-only mode.  A
POST fetch of a repository *named* `git-receive-pack.git` satisfies
that classification, yet the code — which scans only the sub-path
after the repository segment — does not treat it as a push and
delegates it even on a read-only backend, refuting the claim at this
input. -/
theorem push_gate_counterexample :
    reqC7.method = "POST" ∧
    goContains reqC7.path "git-receive-pack" = true ∧
    backendC7.readOnly = true ∧
    ServeHTTP backendC7 reqC7 = .delegated "/git-receive-pack.git/info/refs" ∧
    ServeHTTP backendC7 reqC7 ≠
      .httpError 403 "Repository is read-only. Push operations are not allowed." := by
  refine ⟨rfl, ?_, rfl, ?_, ?_⟩ <;> decide

/-- C7 amended: a request is classified as a push exactly when its
method is POST and either the *sub-path after the repository segment*
(the second component of `parseRequest`) contains `git-receive-pack`,
or its `service` query parameter equals `git-receive-pack`.  The
gates then apply in order: an unparsable repository path is answered
400; in read-only mode a push request is answered 403 without
delegation (even when the repository does not exist); a non-push (or
writable-mode) request whose repository does not resolve to a bare
repository is answered 404 without delegation; only requests passing
both gates are delegated to the external transport process. -/
theorem backend_gates_amended (b : Backend) (r : GitRequest) :
    (isPushRequest r (parseRequest r.path).2 = true ↔
      r.method = "POST" ∧
        (goContains (parseRequest r.path).2 "git-receive-pack" = true ∨
          r.serviceQuery = "git-receive-pack")) ∧
    ((parseRequest r.path).1 = "" →
      ServeHTTP b r = .httpError 400 "Invalid repository path") ∧
    ((parseRequest r.path).1 ≠ "" → b.readOnly = true →
      isPushRequest r (parseRequest r.path).2 = true →
      ServeHTTP b r =
        .httpError 403 "Repository is read-only. Push operations are not allowed.") ∧
    ((parseRequest r.path).1 ≠ "" →
      (b.readOnly && isPushRequest r (parseRequest r.path).2) = false →
      b.isBare (parseRequest r.path).1 = false →
      ServeHTTP b r = .httpError 404 ("Repository not found: " ++ (parseRequest r.path).1)) ∧
    ((parseRequest r.path).1 ≠ "" →
      (b.readOnly && isPushRequest r (parseRequest r.path).2) = false →
      b.isBare (parseRequest r.path).1 = true →
      ServeHTTP b r = .delegated ("/" ++ (parseRequest r.path).1 ++ (parseRequest r.path).2)) := by
  refine ⟨?_, ?_, ?_, ?_, ?_⟩
  · unfold isPushRequest
    by_cases hm : r.method = "POST"
    · simp only [hm]
      by_cases hc : goContains (parseRequest r.path).2 "git-receive-pack" = true
      · simp [hc]
      · simp [hc, beq_iff_eq]
    · simp [hm]
  · intro h
    unfold ServeHTTP
    rw [if_pos h]
  · intro h hro hpush
    unfold ServeHTTP
    rw [if_neg h, if_pos (by rw [hro, hpush]; rfl)]
  · intro h hgate hbare
    unfold ServeHTTP
    rw [if_neg h, if_neg (by simp [hgate]), if_pos (by simp [hbare])]
  · intro h hgate hbare
    unfold ServeHTTP
    rw [if_neg h, if_neg (by simp [hgate]), if_neg (by simp [hbare])]

/-- C7 amended witness: a receive-pack POST on a read-only backend is
answered 403 even though the repository does not exist (the push gate
precedes the existence gate); the same request on a writable backend
with no repositories is answered 404; with the repository present it
is delegated with the parsed CGI path. -/
theorem backend_gates_amended_witness :
    ServeHTTP backendRO reqPush =
      .httpError 403 "Repository is read-only. Push operations are not allowed." ∧
    ServeHTTP backendRW reqPush = .httpError 404 ("Repository not found: " ++ "demo.git") ∧
    ServeHTTP backendOK reqPush = .delegated ("/" ++ "demo.git" ++ "/git-receive-pack") := by
  refine ⟨?_, ?_, ?_⟩
  · exact (backend_gates_amended backendRO reqPush).2.2.1 (by decide) rfl (by decide)
  · have h := (backend_gates_amended backendRW reqPush).2.2.2.1 (by decide) (by decide) rfl
    rw [h]
    decide
  · have h := (backend_gates_amended backendOK reqPush).2.2.2.2 (by decide) (by decide) rfl
    rw [h]
    decide

/-- C8: before writing a dequeued event the worker checks the current
file's size; at or above 10 MiB it closes and renames the file to the
canonical path extended with the `YYYYMMDD-HHMMSS` stamp, opens a
fresh file and writes the event there (the fresh file holds exactly
that event, the rotated file keeps every previously written event);
below the threshold the event is appended to the current file and no
rotation happens. -/
theorem worker_rotates_at_threshold (s : LoggerState) (e : Event) (now : DateTime)
    (encSize : Nat) :
    (MaxLogSize ≤ s.file.size →
      workerStep s e now encSize =
        ⟨s.filePath, ⟨encSize + 1, [e]⟩,
          s.rotated ++ [(s.filePath ++ "." ++ formatStamp now, s.file)]⟩) ∧
    (s.file.size < MaxLogSize →
      workerStep s e now encSize =
        ⟨s.filePath, ⟨s.file.size + encSize + 1, s.file.events ++ [e]⟩, s.rotated⟩) := by
  constructor
  · intro h
    unfold workerStep rotateIfNeeded
    rw [if_neg (by omega)]
    simp
  · intro h
    unfold workerStep rotateIfNeeded
    rw [if_pos h]

/-- C8 witness: a file at exactly the threshold is rotated to
`events.jsonl.20260102-030405` keeping its event, and the next event
lands alone in the fresh file; a 7-byte file below the threshold just
grows. -/
theorem worker_rotates_at_threshold_witness :
    workerStep stFull ev1 now0 10 =
      ⟨"events.jsonl", ⟨11, [ev1]⟩, [("events.jsonl.20260102-030405", ⟨MaxLogSize, [ev0]⟩)]⟩ ∧
    workerStep stSmall ev1 now0 10 = ⟨"events.jsonl", ⟨18, [ev0, ev1]⟩, []⟩ := by
  constructor
  · have h := (worker_rotates_at_threshold stFull ev1 now0 10).1 (by decide)
    rw [h]
    decide
  · have h := (worker_rotates_at_threshold stSmall ev1 now0 10).2 (by decide)
    rw [h]
    decide

/-! Lemmas for the split of a stored password hash at its first
colon. -/

theorem splitFirstColon_eq_none (l : List Char) :
    splitFirstColon l = none ↔ ':' ∉ l := by
  induction l with
  | nil => simp [splitFirstColon]
  | cons c rest ih =>
      by_cases h : c = ':'
      · subst h
        simp [splitFirstColon]
      · cases hs : splitFirstColon rest with
        | none =>
            simp only [splitFirstColon, if_neg h, hs]
            simp [List.mem_cons, Ne.symm h, ih.mp hs]
        | some p =>
            obtain ⟨a, b⟩ := p
            simp only [splitFirstColon, if_neg h, hs]
            have : ':' ∈ rest := by
              by_contra hmem
              rw [← ih] at hmem
              rw [hs] at hmem
              exact Option.noConfusion hmem
            simp [List.mem_cons, this]

theorem splitFirstColon_eq_some (l a b : List Char)
    (h : splitFirstColon l = some (a, b)) : l = a ++ ':' :: b ∧ ':' ∉ a := by
  induction l generalizing a b with
  | nil => exact Option.noConfusion h
  | cons c rest ih =>
      by_cases hc : c = ':'
      · subst hc
        rw [splitFirstColon, if_pos rfl, Option.some.injEq, Prod.mk.injEq] at h
        obtain ⟨ha, hb⟩ := h
        subst ha
        subst hb
        simp
      · cases hs : splitFirstColon rest with
        | none =>
            rw [splitFirstColon, if_neg hc, hs] at h
            exact Option.noConfusion h
        | some p =>
            obtain ⟨a', b'⟩ := p
            rw [splitFirstColon, if_neg hc, hs] at h
            simp only [Option.some.injEq, Prod.mk.injEq] at h
            obtain ⟨ha, hb⟩ := h
            subst hb
            obtain ⟨hl, hmem⟩ := ih a' b' hs
            subst ha
            constructor
            · simp [hl]
            · simp [List.mem_cons, hc, hmem]
              exact fun hh => absurd hh.symm hc

/-- C10: `checkPassword` uses the plain unsalted SHA-256 hex scheme
exactly when the stored hash contains no colon — verification is a
constant-time comparison of the stored value against the digest of
the supplied password — and the salted scheme (HMAC-SHA256 keyed by
the salt) exactly when the stored value contains a colon, which
splits it as `salt:hash` at the first colon. -/
theorem checkPassword_scheme_by_colon (c : CryptoOracle) (stored password : List Char) :
    (':' ∉ stored →
      checkPassword c stored password = (stored == c.sha256Hex password)) ∧
    (':' ∈ stored → ∃ salt hash, splitFirstColon stored = some (salt, hash)) ∧
    (∀ salt hash, splitFirstColon stored = some (salt, hash) →
      stored = salt ++ ':' :: hash ∧ ':' ∉ salt ∧
      checkPassword c stored password = (hash == hashWithSalt c password salt)) := by
  refine ⟨?_, ?_, ?_⟩
  · intro h
    unfold checkPassword
    rw [(splitFirstColon_eq_none stored).mpr h]
  · intro h
    cases hs : splitFirstColon stored with
    | none =>
        exact absurd ((splitFirstColon_eq_none stored).mp hs) (by simp [h])
    | some p =>
        obtain ⟨a, b⟩ := p
        exact ⟨a, b, rfl⟩
  · intro salt hash hs
    obtain ⟨hl, hmem⟩ := splitFirstColon_eq_some stored salt hash hs
    refine ⟨hl, hmem, ?_⟩
    unfold checkPassword
    rw [hs]

/-- C10 witness: the colon-free stored value `Hab` is checked against
the plain digest of the password; the stored value `s:sab` splits as
salt `s` and hash `sab` and is checked against the salted digest. -/
theorem checkPassword_scheme_by_colon_witness :
    checkPassword oracle0 "Hab".toList "ab".toList =
      ("Hab".toList == oracle0.sha256Hex "ab".toList) ∧
    ("s:sab".toList = "s".toList ++ ':' :: "sab".toList ∧ ':' ∉ "s".toList ∧
      checkPassword oracle0 "s:sab".toList "ab".toList =
        ("sab".toList == hashWithSalt oracle0 "ab".toList "s".toList)) := by
  constructor
  · exact (checkPassword_scheme_by_colon oracle0 "Hab".toList "ab".toList).1 (by decide)
  · exact (checkPassword_scheme_by_colon oracle0 "s:sab".toList "ab".toList).2.2
      "s".toList "sab".toList (by decide)

/-! Lemmas about the replay POST loop. -/

theorem replayPost_all_ok (events : List Event) (post : Event → Except String Nat)
    (h : ∀ e ∈ events, ∃ st, post e = .ok st) :
    ∃ n, replayPost events post = .ok (n, events) := by
  induction events with
  | nil => exact ⟨0, rfl⟩
  | cons e rest ih =>
      obtain ⟨st, hst⟩ := h e (by simp)
      obtain ⟨n, hn⟩ := ih (fun x hx => h x (by simp [hx]))
      refine ⟨if st = 200 then n + 1 else n, ?_⟩
      rw [replayPost, hst, hn]

theorem replayPost_aborts (pre : List Event) (e : Event) (rest : List Event)
    (post : Event → Except String Nat) (err : String)
    (hpre : ∀ x ∈ pre, ∃ st, post x = .ok st) (he : post e = .error err) :
    replayPost (pre ++ e :: rest) post =
      .error ("failed to send event: " ++ err ++ " (is server running?)") := by
  induction pre with
  | nil =>
      rw [List.nil_append, replayPost, he]
  | cons x xs ih =>
      obtain ⟨st, hst⟩ := hpre x (by simp)
      have hxs := ih (fun y hy => hpre y (by simp [hy]))
      rw [List.cons_append, replayPost, hst, hxs]

/-- C9: for any persisted log content, requested count and optional
type filter, the replay engine selects exactly the last
`min(limit, count)` events among those that parse and (when the
filter is non-empty) have the filtered type, as the suffix of the
matching sequence in original chronological order; every selected
event is posted, in that order, to the debug endpoint when all POSTs
complete, and a transport failure on any POST aborts the replay with
the descriptive wrapped error. -/
theorem replay_selects_and_posts (lines : List LogLine) (limit : Nat)
    (filterType : String) (post : Event → Except String Nat) :
    readLastEvents lines limit filterType =
      (matchingEvents lines filterType).drop
        ((matchingEvents lines filterType).length - limit) ∧
    (readLastEvents lines limit filterType).length =
      min limit (matchingEvents lines filterType).length ∧
    ((∀ e ∈ readLastEvents lines limit filterType, ∃ st, post e = .ok st) →
      ∃ n, runReplay lines limit filterType post =
        .ok (n, readLastEvents lines limit filterType)) ∧
    (∀ pre e rest err,
      readLastEvents lines limit filterType = pre ++ e :: rest →
      (∀ x ∈ pre, ∃ st, post x = .ok st) → post e = .error err →
      runReplay lines limit filterType post =
        .error ("failed to send event: " ++ err ++ " (is server running?)")) := by
  have hsel : readLastEvents lines limit filterType =
      (matchingEvents lines filterType).drop
        ((matchingEvents lines filterType).length - limit) := by
    simp only [readLastEvents]
    congr 1
    split <;> omega
  refine ⟨hsel, ?_, ?_, ?_⟩
  · rw [hsel, List.length_drop]
    omega
  · intro h
    unfold runReplay
    by_cases hempty : (readLastEvents lines limit filterType).isEmpty = true
    · rw [if_pos hempty]
      rw [List.isEmpty_iff] at hempty
      exact ⟨0, by rw [hempty]⟩
    · rw [if_neg hempty]
      exact replayPost_all_ok _ post h
  · intro pre e rest err hpe hpre he
    unfold runReplay
    rw [if_neg (by rw [hpe]; simp)]
    rw [hpe]
    exact replayPost_aborts pre e rest post err hpre he

/-- C9 witness: in a five-line log with one unparsable line, filtering
on `git.push` with `limit = 2` selects the last two `git.push` events
in original order; the selection equals the claimed suffix of the
matching sequence with length `min 2 3`; and a transport failure on
the first selected event aborts the replay with the wrapped error. -/
theorem replay_selects_and_posts_witness :
    readLastEvents linesW 2 "git.push" =
      (matchingEvents linesW "git.push").drop
        ((matchingEvents linesW "git.push").length - 2) ∧
    (readLastEvents linesW 2 "git.push").length =
      min 2 (matchingEvents linesW "git.push").length ∧
    runReplay linesW 2 "git.push" postFail =
      .error ("failed to send event: " ++ "connection refused" ++ " (is server running?)") := by
  have h := replay_selects_and_posts linesW 2 "git.push" postFail
  refine ⟨h.1, h.2.1, ?_⟩
  refine h.2.2.2 [] ev2 [ev0] "connection refused" ?_ ?_ ?_
  · decide
  · intro x hx
    exact absurd hx (by simp)
  · rfl
